import Mathlib

/-!
Verification of the raster-access core of hytools-lite (`hytools_lite/base.py`)
against its natural-language specification.

The embedding below translates the Python source into Lean:

* `Iterator` (base.py lines 373-451) becomes a pure state machine on
  `IterState`, with one `read_next` function per mode (the dispatch on
  `self.by` in the source selects among them) returning the produced unit's
  indices together with the successor state.
* `HyTools` read operations (base.py lines 175-313) become value-level
  functions on a `Handle` record; the flat-binary readers
  (`envi_read_band` and friends, imported from `hytools_lite.io.envi`,
  which is not part of this tree) are modelled from the specification's
  layout formulas.
* Resource lifecycle (load_data / close_data around each read) is modelled
  separately as a statement-sequence state machine, `read_op_flow`.
* Python name resolution for `HyTools.read_file` is modelled explicitly,
  because that method's behaviour hinges on an unbound identifier.

Machine integers do not arise: all quantities are Python ints (arbitrary
precision), embedded as `Int`/`Nat`. Element byte-swapping is modelled on
16-bit words via `bswap16`.
-/

namespace HTL

/-- Python exception values that the embedded code can raise. `nameError n`
models `NameError`/`UnboundLocalError` on identifier `n`; `ioError` models a
failure coming out of the backend read; `keyError n` models a missing
dictionary key. -/
inductive PyError where
  | nameError (n : String)
  | ioError
  | keyError (n : String)
  deriving DecidableEq, Repr

/-! ## Traversal Engine (`Iterator`, base.py lines 373-451) -/

/-- The mutable counters of `Iterator` set in `__init__`
(base.py lines 393-396): `current_column`, `current_line`, `current_band`
all start at -1 and `complete` starts false. The fixed fields
(`hy_obj`, `by`, `chunk_size`) are passed to the step functions directly. -/
structure IterState where
  current_line : Int
  current_column : Int
  current_band : Int
  complete : Bool
  deriving DecidableEq, Repr

/-- `Iterator.__init__` counter initialisation (base.py lines 393-396). -/
def IterState.init : IterState :=
  { current_line := -1, current_column := -1, current_band := -1, complete := false }

/-- `Iterator.reset` (base.py lines 444-450): all three counters return to -1
and `complete` is cleared. -/
def Iterator.reset (_s : IterState) : IterState :=
  { current_line := -1, current_column := -1, current_band := -1, complete := false }

/-- `Iterator.read_next`, `"line"` branch (base.py lines 403-407):
increment `current_line`, set `complete` when it equals `lines - 1`, and
fetch that line via `hy_obj.get_line`. The returned `Int` is the index
passed to `get_line`; the produced data unit is the handle's line at that
index. -/
def read_next_line (lines : Int) (s : IterState) : Int × IterState :=
  let cl := s.current_line + 1
  let comp := if cl = lines - 1 then true else s.complete
  (cl, { s with current_line := cl, complete := comp })

/-- `Iterator.read_next`, `"column"` branch (base.py lines 408-412). -/
def read_next_column (columns : Int) (s : IterState) : Int × IterState :=
  let cc := s.current_column + 1
  let comp := if cc = columns - 1 then true else s.complete
  (cc, { s with current_column := cc, complete := comp })

/-- `Iterator.read_next`, `"band"` branch (base.py lines 413-417). -/
def read_next_band (bands : Int) (s : IterState) : Int × IterState :=
  let cb := s.current_band + 1
  let comp := if cb = bands - 1 then true else s.complete
  (cb, { s with current_band := cb, complete := comp })

/-- The chunk bounds handed to `hy_obj.get_chunk` by the `"chunk"` branch of
`read_next` (base.py line 441 passes `x_start, x_end, y_start, y_end`); the
produced tile is the raster window `[y_start, y_end) x [x_start, x_end)`,
so its size is `(y_end - y_start) x (x_end - x_start)`. -/
structure ChunkOut where
  y_start : Int
  y_end : Int
  x_start : Int
  x_end : Int
  deriving DecidableEq, Repr

/-- `Iterator.read_next`, `"chunk"` branch (base.py lines 419-441), with
`cs = (chunk_size[0], chunk_size[1])` i.e. `(row step, column step)`:
on the first call both origins advance from -1 to 0; afterwards the column
origin advances by `cs.2`, wrapping to 0 and advancing the line origin by
`cs.1` when it reaches or passes `columns`; the tile ends are clipped to the
raster bounds; `complete` is set when the clipped ends reach the raster's
bottom-right corner. -/
def read_next_chunk (lines columns : Int) (cs : Int × Int) (s : IterState) :
    ChunkOut × IterState :=
  let (col0, line0) :=
    if s.current_column = -1 then (s.current_column + 1, s.current_line + 1)
    else (s.current_column + cs.2, s.current_line)
  let (col, line) := if col0 ≥ columns then ((0 : Int), line0 + cs.1) else (col0, line0)
  let y_start := line
  let y_end := if line + cs.1 ≥ lines then lines else line + cs.1
  let x_start := col
  let x_end := if col + cs.2 ≥ columns then columns else col + cs.2
  let comp := if y_end = lines ∧ x_end = columns then true else s.complete
  (⟨y_start, y_end, x_start, x_end⟩,
   { s with current_line := line, current_column := col, complete := comp })

/-- State after `k` successive `read_next` calls in line mode, starting from
a fresh iterator. -/
def iterLine (lines : Int) : Nat → IterState
  | 0 => IterState.init
  | k + 1 => (read_next_line lines (iterLine lines k)).2

/-- State after `k` successive `read_next` calls in column mode. -/
def iterColumn (columns : Int) : Nat → IterState
  | 0 => IterState.init
  | k + 1 => (read_next_column columns (iterColumn columns k)).2

/-- State after `k` successive `read_next` calls in band mode. -/
def iterBand (bands : Int) : Nat → IterState
  | 0 => IterState.init
  | k + 1 => (read_next_band bands (iterBand bands k)).2

/-- State after `k` successive `read_next` calls in chunk mode. -/
def chunkStates (lines columns : Int) (cs : Int × Int) : Nat → IterState
  | 0 => IterState.init
  | k + 1 => (read_next_chunk lines columns cs (chunkStates lines columns cs k)).2

/-- The tile produced by the `(k+1)`-st `read_next` call in chunk mode
(0-indexed `k`). -/
def chunkTileAt (lines columns : Int) (cs : Int × Int) (k : Nat) : ChunkOut :=
  (read_next_chunk lines columns cs (chunkStates lines columns cs k)).1

/-- Size (rows, cols), origin (line, column) and post-call `complete` flag of
the `(k+1)`-st chunk-mode tile. -/
def chunkObs (lines columns : Int) (cs : Int × Int) (k : Nat) :
    (Int × Int) × (Int × Int) × Bool :=
  let t := chunkTileAt lines columns cs k
  ((t.y_end - t.y_start, t.x_end - t.x_start), (t.y_start, t.x_start),
   (chunkStates lines columns cs (k + 1)).complete)

/-! ## Wavelength resolution (`wave_to_band` lines 156-173, `get_wave` lines 201-221) -/

/-- Index of the first occurrence of the minimum of a list: `np.argmin`. -/
def npArgmin : List Nat → Nat
  | [] => 0
  | [_] => 0
  | x :: y :: rest =>
    if (y :: rest).getD (npArgmin (y :: rest)) 0 < x then npArgmin (y :: rest) + 1 else 0

/-- Minimum of a list, `ndarray.min()`; 0 on the empty list (where NumPy
would raise). -/
def npMinI : List Int → Int
  | [] => 0
  | x :: rest => rest.foldl min x

/-- Maximum of a list, `ndarray.max()`; 0 on the empty list. -/
def npMaxI : List Int → Int
  | [] => 0
  | x :: rest => rest.foldl max x

/-- `HyTools.wave_to_band` (base.py lines 156-173): a wave outside
`[wavelengths.min(), wavelengths.max()]` gives `None` (after printing a
message); otherwise `np.argmin(np.abs(self.wavelengths - wave))`, the index
of the first band minimising absolute wavelength distance. -/
def wave_to_band (ws : List Int) (wave : Int) : Option Nat :=
  if wave > npMaxI ws ∨ wave < npMinI ws then none
  else some (npArgmin (ws.map (fun w => (w - wave).natAbs)))

/-- The band index `HyTools.get_wave` reads (base.py lines 215-220): the
method repeats the range check of `wave_to_band` and passes
`np.argmin(np.abs(self.wavelengths - wave))` to `get_band`; `none` when it
returns `None` without reading. -/
def get_wave_select (ws : List Int) (wave : Int) : Option Nat :=
  if wave > npMaxI ws ∨ wave < npMinI ws then none
  else some (npArgmin (ws.map (fun w => (w - wave).natAbs)))

/-! ## Raster Handle and the read operations (base.py lines 175-313) -/

/-- The three flat-binary interleave layouts. -/
inductive Interleave where
  | bsq
  | bil
  | bip
  deriving DecidableEq, Repr

/-- Modelled from the spec: flat-buffer element index of the logical
position (line `l`, column `c`, band `b`) under each interleave layout, per
the layout formulas of spec section 4.1. The implementing indexing code
lives in `hytools_lite/io/envi.py`, which is not part of this tree. -/
def flatIndex : Interleave → Nat → Nat → Nat → Nat → Nat → Nat → Nat
  | .bsq, lines, columns, _bands, l, c, b => b * lines * columns + l * columns + c
  | .bil, _lines, columns, bands, l, c, b => l * bands * columns + b * columns + c
  | .bip, _lines, columns, bands, l, c, b => l * columns * bands + c * bands + b

/-- Byte swap of one 16-bit element, `ndarray.byteswap` on a two-byte
dtype: the two bytes exchange places. -/
def bswap16 (v : Nat) : Nat := v % 256 * 256 + v / 256

/-- The `HyTools` attributes the read operations consult (constructor
defaults at base.py lines 38-70): `file_type` is `None` until `read_file`
sets it; raster storage is `buf` (the flat element buffer the memory map
exposes) for the `"envi"` backend and `cube` (the (line, column, band)
dataset) for the `"neon"` backend; `masks` is the named-mask registry
`self.mask`. -/
structure Handle where
  file_type : Option String := none
  lines : Nat := 0
  columns : Nat := 0
  bands : Nat := 0
  interleave : Interleave := .bsq
  endianness : String := ""
  buf : Nat → Nat := fun _ => 0
  cube : Nat → Nat → Nat → Nat := fun _ _ _ => 0
  masks : List (String × List (List Bool)) := []

/-- A handle as the constructor leaves it. -/
def Handle.init : Handle := {}

/-- Modelled from the spec: `envi_read_band` selects the raw stored
elements of one band, shaped (lines, columns), with no byte-order
correction (spec sections 4.1-4.2). -/
def envi_read_band (buf : Nat → Nat) (il : Interleave)
    (lines columns bands index : Nat) : Nat → Nat → Nat :=
  fun l c => buf (flatIndex il lines columns bands l c index)

/-- Modelled from the spec: `envi_read_line` selects one raw line, shaped
(columns, bands). -/
def envi_read_line (buf : Nat → Nat) (il : Interleave)
    (lines columns bands index : Nat) : Nat → Nat → Nat :=
  fun c b => buf (flatIndex il lines columns bands index c b)

/-- Modelled from the spec: `envi_read_column` selects one raw column,
shaped (lines, bands). -/
def envi_read_column (buf : Nat → Nat) (il : Interleave)
    (lines columns bands index : Nat) : Nat → Nat → Nat :=
  fun l b => buf (flatIndex il lines columns bands l index b)

/-- Modelled from the spec: `envi_read_pixels` gathers the raw spectra of
the paired (line, column) indices, one row per pair, in input order
(spec sections 4.1 and 4.4). -/
def envi_read_pixels (buf : Nat → Nat) (il : Interleave)
    (lines columns bands : Nat) (ls cs : List Nat) : List (List Nat) :=
  (ls.zip cs).map (fun p =>
    (List.range bands).map (fun b => buf (flatIndex il lines columns bands p.1 p.2 b)))

/-- Modelled from the spec: `envi_read_chunk` selects the raw window
`[line_start, line_end) x [col_start, col_end)` across all bands; position
(y, x, b) of the result is logical position (line_start + y, col_start + x,
b) of the raster. -/
def envi_read_chunk (buf : Nat → Nat) (il : Interleave)
    (lines columns bands : Nat) (col_start line_start : Nat) :
    Nat → Nat → Nat → Nat :=
  fun y x b => buf (flatIndex il lines columns bands (line_start + y) (col_start + x) b)

/-- `HyTools.get_band` value semantics (base.py lines 175-198, `mask=None`):
dispatch on `file_type`; the `"neon"` branch slices `self.data[:,:,index]`;
the `"envi"` branch applies `envi_read_band` and byte-swaps exactly when the
declared `endianness` differs from `sys.byteorder` (the platform's native
order, passed as `sysbo`). Any other `file_type` leaves the local `band`
unbound, so `return band` raises. The load_data/close_data lifecycle around
the read is modelled by `read_op_flow`. -/
def get_band_val (h : Handle) (sysbo : String) (index : Nat) :
    Except PyError (Nat → Nat → Nat) :=
  if h.file_type = some "neon" then
    .ok (fun l c => h.cube l c index)
  else if h.file_type = some "envi" then
    let band := envi_read_band h.buf h.interleave h.lines h.columns h.bands index
    .ok (if h.endianness ≠ sysbo then fun l c => bswap16 (band l c) else band)
  else .error (.nameError "band")

/-- `HyTools.get_line` value semantics (base.py lines 248-267). -/
def get_line_val (h : Handle) (sysbo : String) (index : Nat) :
    Except PyError (Nat → Nat → Nat) :=
  if h.file_type = some "neon" then
    .ok (fun c b => h.cube index c b)
  else if h.file_type = some "envi" then
    let line := envi_read_line h.buf h.interleave h.lines h.columns h.bands index
    .ok (if h.endianness ≠ sysbo then fun c b => bswap16 (line c b) else line)
  else .error (.nameError "line")

/-- `HyTools.get_column` value semantics (base.py lines 269-288). -/
def get_column_val (h : Handle) (sysbo : String) (index : Nat) :
    Except PyError (Nat → Nat → Nat) :=
  if h.file_type = some "neon" then
    .ok (fun l b => h.cube l index b)
  else if h.file_type = some "envi" then
    let column := envi_read_column h.buf h.interleave h.lines h.columns h.bands index
    .ok (if h.endianness ≠ sysbo then fun l b => bswap16 (column l b) else column)
  else .error (.nameError "column")

/-- `HyTools.get_pixels` value semantics (base.py lines 223-246): the
`"neon"` branch appends `self.data[line, column, :]` for each pair produced
by `zip(lines, columns)`, in loop order; the `"envi"` branch calls
`envi_read_pixels` and byte-swaps on endianness mismatch; any other
`file_type` leaves the local `pixels` unbound. -/
def get_pixels_val (h : Handle) (sysbo : String) (ls cs : List Nat) :
    Except PyError (List (List Nat)) :=
  if h.file_type = some "neon" then
    .ok ((ls.zip cs).map (fun p => (List.range h.bands).map (fun b => h.cube p.1 p.2 b)))
  else if h.file_type = some "envi" then
    let pixels := envi_read_pixels h.buf h.interleave h.lines h.columns h.bands ls cs
    .ok (if h.endianness ≠ sysbo then pixels.map (fun row => row.map bswap16) else pixels)
  else .error (.nameError "pixels")

/-- `HyTools.get_chunk` value semantics (base.py lines 290-313), for an
in-bounds window: position (y, x, b) of the result is raster position
(line_start + y, col_start + x, b). -/
def get_chunk_val (h : Handle) (sysbo : String) (col_start line_start : Nat) :
    Except PyError (Nat → Nat → Nat → Nat) :=
  if h.file_type = some "neon" then
    .ok (fun y x b => h.cube (line_start + y) (col_start + x) b)
  else if h.file_type = some "envi" then
    let chunk := envi_read_chunk h.buf h.interleave h.lines h.columns h.bands
      col_start line_start
    .ok (if h.endianness ≠ sysbo then fun y x b => bswap16 (chunk y x b) else chunk)
  else .error (.nameError "chunk")

/-- The band function a successful `get_band_val` returns (constant 0 on
the error case, which the theorems exclude). -/
def bandOf (h : Handle) (sysbo : String) (index : Nat) : Nat → Nat → Nat :=
  match get_band_val h sysbo index with
  | .ok f => f
  | .error _ => fun _ _ => 0

/-- The pixel rows a successful `get_pixels_val` returns. -/
def pixelsOf (h : Handle) (sysbo : String) (ls cs : List Nat) : List (List Nat) :=
  match get_pixels_val h sysbo ls cs with
  | .ok rows => rows
  | .error _ => []

/-- The chunk function a successful `get_chunk_val` returns. -/
def chunkOf (h : Handle) (sysbo : String) (col_start line_start : Nat) :
    Nat → Nat → Nat → Nat :=
  match get_chunk_val h sysbo col_start line_start with
  | .ok f => f
  | .error _ => fun _ _ _ => 0

/-! ## Mask application (`get_band` lines 195-196) -/

/-- Row-major positions of the `true` entries of a flat boolean list. -/
def truePositions : List Bool → List Nat
  | [] => []
  | true :: bs => 0 :: (truePositions bs).map (· + 1)
  | false :: bs => (truePositions bs).map (· + 1)

/-- NumPy boolean-array indexing on equal-length flat lists: keep the
elements of `xs` at the positions where `bs` is true, in order. -/
def maskSelFlat (xs : List Nat) (bs : List Bool) : List Nat :=
  (xs.zip bs).filterMap (fun p => if p.2 then some p.1 else none)

/-- NumPy boolean indexing `band[mask]` of a 2-D array by a same-shaped
2-D boolean mask: flatten both row-major, then select. -/
def numpyBoolSelect (band : List (List Nat)) (mask : List (List Bool)) : List Nat :=
  maskSelFlat band.flatten mask.flatten

/-- Materialise a (lines, columns) band function as nested row-major lists:
the 2-D array `get_band` returns before any mask indexing. -/
def band2list (lines columns : Nat) (f : Nat → Nat → Nat) : List (List Nat) :=
  (List.range lines).map (fun l => (List.range columns).map (fun c => f l c))

/-- `HyTools.get_band` with a mask name (base.py lines 195-196): after the
backend read, `band = band[self.mask[mask]]`; a name absent from the
registry raises `KeyError`. -/
def get_band_masked (h : Handle) (sysbo : String) (index : Nat) (name : String) :
    Except PyError (List Nat) :=
  match get_band_val h sysbo index with
  | .error e => .error e
  | .ok f =>
    match List.lookup name h.masks with
    | none => .error (.keyError name)
    | some m => .ok (numpyBoolSelect (band2list h.lines h.columns f) m)

/-! ## Data-handle lifecycle (`load_data` lines 109-126, `close_data` lines
128-137, and the call protocol of every read operation) -/

/-- The parts of `HyTools` state the read protocol can touch: whether a
data handle is currently held (`self.data`/`self.hdf_obj` non-`None`), the
mask registry, and the raster metadata. -/
structure FlowState where
  data_open : Bool
  masks : List (String × List (List Bool))
  lines : Nat
  columns : Nat
  bands : Nat
  wavelengths : List Int
  deriving DecidableEq, Repr

/-- The statement sequence shared by all five read operations
(`get_band` 175-198, `get_pixels` 223-246, `get_line` 248-267,
`get_column` 269-288, `get_chunk` 290-313): `self.load_data()`, then the
backend read, then `self.close_data()` — with no `try`/`finally` anywhere
in the source. `loadOk = false` models `load_data` itself raising (the
memory map or container open fails), in which case no handle was acquired
and the exception propagates. `readResult` is the outcome of the backend
read; when it raises, the exception propagates immediately, so `close_data`
is never reached and the just-acquired handle stays open. -/
def read_op_flow (s : FlowState) (loadOk : Bool) (readResult : Except PyError Unit) :
    FlowState × Except PyError Unit :=
  if loadOk = false then (s, .error .ioError)
  else
    let s1 : FlowState := { s with data_open := true }
    match readResult with
    | .error e => (s1, .error e)
    | .ok _ => ({ s1 with data_open := false }, .ok ())

/-! ## Opening (`HyTools.read_file`, base.py lines 72-85) -/

/-- The names locally in scope inside `read_file`: its parameters
(base.py line 72). -/
def readFileLocals : List String := ["self", "file_type", "anc_path", "ext"]

/-- The module-level names of `hytools_lite/base.py`: its imports
(lines 23-31) and the two classes it defines. -/
def moduleGlobals : List String :=
  ["os", "sys", "warnings", "h5py", "np",
   "envi_read_band", "envi_read_pixels", "envi_read_line", "envi_read_column",
   "envi_read_chunk", "open_envi", "parse_envi_header", "envi_header_from_neon",
   "open_neon", "HyTools", "Iterator"]

/-- Python builtins the module references. -/
def pyBuiltins : List String := ["print", "zip", "range", "len"]

/-- Python name resolution inside `read_file`: locals, then module globals,
then builtins; an identifier bound nowhere raises `NameError`. -/
def pyLookup (n : String) : Except PyError Unit :=
  if n ∈ readFileLocals ∨ n ∈ moduleGlobals ∨ n ∈ pyBuiltins then .ok ()
  else .error (.nameError n)

/-- The backend dispatch of `read_file` (base.py lines 76-81): `"envi"`
calls `open_envi`, `"neon"` calls `open_neon`, and anything else only
prints a message and falls through to the remaining statements — it does
not raise. -/
inductive OpenAction where
  | openEnvi
  | openNeon
  | printUnrecognized
  deriving DecidableEq, Repr

/-- Which action the `read_file` dispatch (base.py lines 76-81) takes for a
given `file_type`. -/
def read_file_dispatch (file_type : String) : OpenAction :=
  if file_type = "envi" then .openEnvi
  else if file_type = "neon" then .openNeon
  else .printUnrecognized

/-- `HyTools.read_file` (base.py lines 72-85). Its first statement is
`self.file_name = file_name`; evaluating the right-hand side looks up the
identifier `file_name`, which is neither a parameter nor a module-level
name nor a builtin, so the statement raises before assigning anything to
`self`. The success continuation (the `file_type` assignment, the backend
dispatch of `read_file_dispatch`, and the no-data mask creation) is
unreachable for every argument combination and is modelled only up to the
`file_type` assignment. -/
def read_file (h : Handle) (file_type : String) (_anc_path : Option String)
    (_ext : Bool) : Handle × Except PyError Unit :=
  match pyLookup "file_name" with
  | .error e => (h, .error e)
  | .ok _ => ({ h with file_type := some file_type }, .ok ())

/-! ## Concrete instances used to witness the theorems below -/

/-- A concrete pre-read lifecycle state: data handle closed, one registered
mask, small raster metadata. -/
def flow0 : FlowState :=
  { data_open := false, masks := [("no_data", [[true, false]])],
    lines := 1, columns := 2, bands := 1, wavelengths := [450] }

/-- A concrete flat-binary handle whose declared byte order ("big") will
differ from the native order used in the witnesses ("little"); the raw
buffer stores its own index as value. -/
def hEnvi : Handle :=
  { file_type := some "envi", lines := 2, columns := 3, bands := 2,
    interleave := .bip, endianness := "big", buf := fun i => i }

/-- A concrete hierarchical-container handle; the dataset value at
(l, c, b) is `100 * l + 10 * c + b`. -/
def hNeon : Handle :=
  { file_type := some "neon", lines := 4, columns := 5, bands := 2,
    cube := fun l c b => 100 * l + 10 * c + b }

/-- A concrete hierarchical-container handle with a registered 2 x 2
`"no_data"` mask; the dataset value at (l, c, b) is `10 * l + c`. -/
def hMask : Handle :=
  { file_type := some "neon", lines := 2, columns := 2, bands := 1,
    cube := fun l c _ => 10 * l + c,
    masks := [("no_data", [[true, false], [false, true]])] }

/-! ## Theorems -/

/-- C1: chunk-mode traversal of a raster with lines = 250, columns = 250 and
chunk_shape (100, 100) produces exactly nine tiles, of sizes 100x100,
100x100, 100x50, 100x100, 100x100, 100x50, 50x100, 50x100, 50x50, at
row-major tile origins, and the cursor's `complete` flag is false after each
of the first eight tiles and true after (and only after) the ninth. Each
entry below is ((rows, cols), (line origin, column origin), complete after
the call). -/
theorem chunk_traversal_250x250 :
    (List.range 9).map (chunkObs 250 250 (100, 100)) =
      [((100, 100), (0, 0), false), ((100, 100), (0, 100), false),
       ((100, 50), (0, 200), false),
       ((100, 100), (100, 0), false), ((100, 100), (100, 100), false),
       ((100, 50), (100, 200), false),
       ((50, 100), (200, 0), false), ((50, 100), (200, 100), false),
       ((50, 50), (200, 200), true)] := by
  decide

/-- C2: for every combination of arguments, `read_file` raises a NameError
on the unbound identifier `file_name` before dispatching to either backend,
and leaves the handle exactly as it was — in particular a handle opened
from fresh keeps all constructor defaults, since the error is returned with
the input state unchanged. -/
theorem read_file_always_raises (h : Handle) (file_type : String)
    (anc_path : Option String) (ext' : Bool) :
    read_file h file_type anc_path ext' = (h, .error (.nameError "file_name")) := rfl

/-- C3 counterexample: a backend read that fails after `load_data` acquired
the data handle leaves the handle open — `close_data` is not reached, so the
release is not unconditional. -/
theorem failed_read_keeps_handle_open :
    (read_op_flow flow0 true (.error .ioError)).1.data_open = true := rfl

/-- C3 amended: every read operation leaves the raster metadata and the
mask registry untouched whether it succeeds or fails, and releases the data
handle when the backend read succeeds; but when the backend read raises
after acquisition the handle is not released (the source has no
try/finally), and when acquisition itself fails no handle was opened and
the state is returned unchanged. -/
theorem read_flow_amended (s : FlowState) (loadOk : Bool)
    (r : Except PyError Unit) :
    ((read_op_flow s loadOk r).1.masks = s.masks
      ∧ (read_op_flow s loadOk r).1.lines = s.lines
      ∧ (read_op_flow s loadOk r).1.columns = s.columns
      ∧ (read_op_flow s loadOk r).1.bands = s.bands
      ∧ (read_op_flow s loadOk r).1.wavelengths = s.wavelengths)
    ∧ (loadOk = true → r = .ok () → (read_op_flow s loadOk r).1.data_open = false)
    ∧ (loadOk = true → ∀ e, r = .error e →
        (read_op_flow s loadOk r).1.data_open = true)
    ∧ (loadOk = false → (read_op_flow s loadOk r).1 = s) := by
  cases loadOk <;> cases r <;> simp [read_op_flow]

/-- Witness for the amended C3 theorem at a concrete state: a successful
read releases the handle, and a failed read preserves the mask registry. -/
theorem read_flow_amended_witness :
    (read_op_flow flow0 true (.ok ())).1.data_open = false
    ∧ (read_op_flow flow0 true (.error .ioError)).1.masks = flow0.masks :=
  ⟨(read_flow_amended flow0 true (.ok ())).2.1 rfl rfl,
   (read_flow_amended flow0 true (.error .ioError)).1.1⟩

/-- C7: `reset` returns any cursor, after any number of calls, to exactly
the freshly-constructed counter state — all position counters at the
before-start sentinel -1 and `complete` cleared — without touching data; so
the next `read_next` call in any mode returns the same fetched unit indices
and successor state as the first call of a fresh cursor on the same handle
and mode, and hence the identical first unit. -/
theorem reset_restarts_iteration (s : IterState) (lines columns bands : Int)
    (cs : Int × Int) :
    Iterator.reset s = IterState.init
    ∧ read_next_line lines (Iterator.reset s) = read_next_line lines IterState.init
    ∧ read_next_column columns (Iterator.reset s)
        = read_next_column columns IterState.init
    ∧ read_next_band bands (Iterator.reset s) = read_next_band bands IterState.init
    ∧ read_next_chunk lines columns cs (Iterator.reset s)
        = read_next_chunk lines columns cs IterState.init :=
  ⟨rfl, rfl, rfl, rfl, rfl⟩

/-- C10 counterexample: an unrecognized backend kind is not a configuration
error at open time — the dispatch action for "zarr" is the non-raising
print branch, and `read_file` with "zarr" fails with exactly the same
unrelated NameError, and the same resulting state, as with the recognized
kind "envi". -/
theorem unrecognized_kind_not_config_error :
    read_file Handle.init "zarr" none false = read_file Handle.init "envi" none false
    ∧ read_file_dispatch "zarr" = OpenAction.printUnrecognized := ⟨rfl, rfl⟩

/-- C10 amended: invoked with a backend kind other than "envi" and "neon",
the open operation does fail at open time and the resulting handle cannot
complete any read operation — but not as a configuration error: the
unrecognized-kind branch of the dispatch only prints and falls through, and
the actual failure is the NameError on the unbound `file_name`, which is
raised for recognized kinds as well; every subsequent read on the unchanged
default handle raises because no dispatch branch binds the result
variable. -/
theorem unrecognized_kind_open_amended (ft : String) (hfe : ft ≠ "envi")
    (hfn : ft ≠ "neon") (sysbo : String) (index col_start line_start : Nat)
    (ls cs : List Nat) :
    read_file Handle.init ft none false
        = (Handle.init, .error (.nameError "file_name"))
    ∧ read_file_dispatch ft = OpenAction.printUnrecognized
    ∧ get_band_val Handle.init sysbo index = .error (.nameError "band")
    ∧ get_line_val Handle.init sysbo index = .error (.nameError "line")
    ∧ get_column_val Handle.init sysbo index = .error (.nameError "column")
    ∧ get_pixels_val Handle.init sysbo ls cs = .error (.nameError "pixels")
    ∧ get_chunk_val Handle.init sysbo col_start line_start
        = .error (.nameError "chunk") := by
  refine ⟨rfl, ?_, rfl, rfl, rfl, rfl, rfl⟩
  rw [read_file_dispatch, if_neg hfe, if_neg hfn]

/-- After `k` line-mode calls the counter sits at `k - 1`, and `complete`
has been set exactly when the counter has reached `lines - 1`, i.e. when
`lines ≤ k`. -/
theorem iterLine_invariant (n : Int) (hn : 0 < n) :
    ∀ k : Nat, (iterLine n k).current_line = (k : Int) - 1
      ∧ ((iterLine n k).complete = true ↔ n ≤ (k : Int)) := by
  intro k
  induction k with
  | zero =>
    refine ⟨rfl, ?_⟩
    show false = true ↔ n ≤ (0 : Int)
    simp
    omega
  | succ k ih =>
    obtain ⟨hcl, hcomp⟩ := ih
    constructor
    · show (read_next_line n (iterLine n k)).2.current_line = _
      simp only [read_next_line]
      rw [hcl]
      push_cast
      ring
    · show ((if (iterLine n k).current_line + 1 = n - 1 then true
              else (iterLine n k).complete) = true) ↔ _
      rw [hcl]
      split
      · rename_i hedge
        simp only [true_iff]
        push_cast
        omega
      · rename_i hedge
        rw [hcomp]
        push_cast at hedge ⊢
        omega

/-- Column-mode analogue of `iterLine_invariant`. -/
theorem iterColumn_invariant (n : Int) (hn : 0 < n) :
    ∀ k : Nat, (iterColumn n k).current_column = (k : Int) - 1
      ∧ ((iterColumn n k).complete = true ↔ n ≤ (k : Int)) := by
  intro k
  induction k with
  | zero =>
    refine ⟨rfl, ?_⟩
    show false = true ↔ n ≤ (0 : Int)
    simp
    omega
  | succ k ih =>
    obtain ⟨hcl, hcomp⟩ := ih
    constructor
    · show (read_next_column n (iterColumn n k)).2.current_column = _
      simp only [read_next_column]
      rw [hcl]
      push_cast
      ring
    · show ((if (iterColumn n k).current_column + 1 = n - 1 then true
              else (iterColumn n k).complete) = true) ↔ _
      rw [hcl]
      split
      · rename_i hedge
        simp only [true_iff]
        push_cast
        omega
      · rename_i hedge
        rw [hcomp]
        push_cast at hedge ⊢
        omega

/-- Band-mode analogue of `iterLine_invariant`. -/
theorem iterBand_invariant (n : Int) (hn : 0 < n) :
    ∀ k : Nat, (iterBand n k).current_band = (k : Int) - 1
      ∧ ((iterBand n k).complete = true ↔ n ≤ (k : Int)) := by
  intro k
  induction k with
  | zero =>
    refine ⟨rfl, ?_⟩
    show false = true ↔ n ≤ (0 : Int)
    simp
    omega
  | succ k ih =>
    obtain ⟨hcl, hcomp⟩ := ih
    constructor
    · show (read_next_band n (iterBand n k)).2.current_band = _
      simp only [read_next_band]
      rw [hcl]
      push_cast
      ring
    · show ((if (iterBand n k).current_band + 1 = n - 1 then true
              else (iterBand n k).complete) = true) ↔ _
      rw [hcl]
      split
      · rename_i hedge
        simp only [true_iff]
        push_cast
        omega
      · rename_i hedge
        rw [hcomp]
        push_cast at hedge ⊢
        omega

/-- C6: in line, column and band modes the relevant position counter starts
at the before-start sentinel -1; for 1 ≤ k ≤ n (the relevant dimension
size) the k-th `read_next` call passes index k - 1 to the Raster Handle's
fetch operation; and `complete` is true after the k-th call if and only if
k = n — so the unit at the last valid index is still produced on the call
that sets the flag. -/
theorem line_column_band_iteration (n : Int) (k : Nat) (hn : 0 < n)
    (hk1 : 1 ≤ k) (hkn : (k : Int) ≤ n) :
    IterState.init.current_line = -1
    ∧ IterState.init.current_column = -1
    ∧ IterState.init.current_band = -1
    ∧ (read_next_line n (iterLine n (k - 1))).1 = (k : Int) - 1
    ∧ ((iterLine n k).complete = true ↔ (k : Int) = n)
    ∧ (read_next_column n (iterColumn n (k - 1))).1 = (k : Int) - 1
    ∧ ((iterColumn n k).complete = true ↔ (k : Int) = n)
    ∧ (read_next_band n (iterBand n (k - 1))).1 = (k : Int) - 1
    ∧ ((iterBand n k).complete = true ↔ (k : Int) = n) := by
  have hk1' : ((k - 1 : Nat) : Int) = (k : Int) - 1 := by
    push_cast [hk1]
    ring
  refine ⟨rfl, rfl, rfl, ?_, ?_, ?_, ?_, ?_, ?_⟩
  · show (iterLine n (k - 1)).current_line + 1 = (k : Int) - 1
    rw [(iterLine_invariant n hn (k - 1)).1, hk1']
    ring
  · rw [(iterLine_invariant n hn k).2]
    omega
  · show (iterColumn n (k - 1)).current_column + 1 = (k : Int) - 1
    rw [(iterColumn_invariant n hn (k - 1)).1, hk1']
    ring
  · rw [(iterColumn_invariant n hn k).2]
    omega
  · show (iterBand n (k - 1)).current_band + 1 = (k : Int) - 1
    rw [(iterBand_invariant n hn (k - 1)).1, hk1']
    ring
  · rw [(iterBand_invariant n hn k).2]
    omega

/-- Witness for the C6 theorem at n = 3, k = 3: the third call fetches
index 2 and is the call on which `complete` becomes true. -/
theorem line_column_band_iteration_witness :
    (read_next_line 3 (iterLine 3 (3 - 1))).1 = ((3 : Nat) : Int) - 1
    ∧ ((iterLine 3 3).complete = true ↔ ((3 : Nat) : Int) = 3) :=
  ⟨(line_column_band_iteration 3 3 (by decide) (by decide) (by decide)).2.2.2.1,
   (line_column_band_iteration 3 3 (by decide) (by decide) (by decide)).2.2.2.2.1⟩

/-- `npArgmin` returns a valid index of any non-empty list. -/
theorem npArgmin_lt_length : (xs : List Nat) → xs ≠ [] → npArgmin xs < xs.length
  | [], h => absurd rfl h
  | [_], _ => Nat.zero_lt_one
  | x :: y :: rest, _ => by
    simp only [npArgmin]
    split
    · have := npArgmin_lt_length (y :: rest) (by simp)
      simpa [List.length_cons] using Nat.succ_lt_succ this
    · simp [List.length_cons]

/-- The element at `npArgmin xs` is a minimum of `xs`. -/
theorem npArgmin_getD_le : (xs : List Nat) → ∀ j, j < xs.length →
    xs.getD (npArgmin xs) 0 ≤ xs.getD j 0
  | [], j, h => by simp at h
  | [x], j, h => by
    have hj : j = 0 := by
      simp only [List.length_cons, List.length_nil] at h
      omega
    subst hj
    exact Nat.le_refl _
  | x :: y :: rest, j, h => by
    have IH := npArgmin_getD_le (y :: rest)
    simp only [npArgmin]
    split
    · rename_i hc
      cases j with
      | zero =>
        simp only [List.getD_cons_succ, List.getD_cons_zero]
        exact Nat.le_of_lt hc
      | succ j' =>
        simp only [List.getD_cons_succ]
        exact IH j' (by simpa using h)
    · rename_i hc
      push_neg at hc
      cases j with
      | zero => exact Nat.le_refl _
      | succ j' =>
        simp only [List.getD_cons_succ, List.getD_cons_zero]
        exact Nat.le_trans hc (IH j' (by simpa using h))

/-- `getD` through `map`, at an in-bounds index. -/
theorem getD_map_of_lt {α β : Type} (f : α → β) (d : α) (d' : β) :
    (l : List α) → (i : Nat) → i < l.length →
      (l.map f).getD i d' = f (l.getD i d)
  | [], i, h => by simp at h
  | a :: l, 0, _ => by simp
  | a :: l, i + 1, h => by
    simp only [List.map_cons, List.getD_cons_succ]
    exact getD_map_of_lt f d d' l i (by simpa using h)

/-- `getD` through `zip`, at an index in bounds of both lists. -/
theorem getD_zip_of_lt : (xs ys : List Nat) → (i : Nat) → i < xs.length →
    i < ys.length → (xs.zip ys).getD i (0, 0) = (xs.getD i 0, ys.getD i 0)
  | [], _, i, h, _ => by simp at h
  | _ :: _, [], i, _, h => by simp at h
  | x :: xs, y :: ys, 0, _, _ => by simp
  | x :: xs, y :: ys, i + 1, h1, h2 => by
    simp only [List.zip_cons_cons, List.getD_cons_succ]
    exact getD_zip_of_lt xs ys i (by simpa using h1) (by simpa using h2)

/-- C4: for every query `wave` over a non-empty wavelength list, the
wavelength-resolving read selects a band index of minimum absolute distance
to the query when the query lies inside the closed interval from the least
to the greatest wavelength, and yields no result when it lies outside;
`get_wave` applies the same selection as `wave_to_band`; in particular with
wavelengths [450, 550, 650, 750], querying 560 resolves to band index 1 and
querying 1000 yields no result. -/
theorem wavelength_resolution (ws : List Int) (wave : Int) (hne : ws ≠ []) :
    (npMinI ws ≤ wave ∧ wave ≤ npMaxI ws →
      ∃ i, wave_to_band ws wave = some i ∧ i < ws.length ∧
        ∀ j, j < ws.length →
          (ws.getD i 0 - wave).natAbs ≤ (ws.getD j 0 - wave).natAbs)
    ∧ (wave < npMinI ws ∨ wave > npMaxI ws → wave_to_band ws wave = none)
    ∧ get_wave_select ws wave = wave_to_band ws wave
    ∧ wave_to_band [450, 550, 650, 750] 560 = some 1
    ∧ wave_to_band [450, 550, 650, 750] 1000 = none := by
  refine ⟨?_, ?_, rfl, by decide, by decide⟩
  · rintro ⟨h1, h2⟩
    have hcond : ¬(wave > npMaxI ws ∨ wave < npMinI ws) := by omega
    rw [wave_to_band, if_neg hcond]
    have hlen : (ws.map (fun w => (w - wave).natAbs)).length = ws.length := by simp
    have hnds : ws.map (fun w => (w - wave).natAbs) ≠ [] := by
      intro hc
      exact hne (List.map_eq_nil_iff.mp hc)
    have hidx : npArgmin (ws.map (fun w => (w - wave).natAbs)) < ws.length := by
      rw [← hlen]
      exact npArgmin_lt_length _ hnds
    refine ⟨npArgmin (ws.map (fun w => (w - wave).natAbs)), rfl, hidx, ?_⟩
    intro j hj
    have hmin := npArgmin_getD_le (ws.map (fun w => (w - wave).natAbs)) j
      (by rw [hlen]; exact hj)
    rwa [getD_map_of_lt _ 0 _ ws _ hidx, getD_map_of_lt _ 0 _ ws j hj] at hmin
  · intro hout
    rw [wave_to_band, if_pos hout.symm]

/-- Witness for the C4 theorem at wavelengths [450, 550, 650, 750] and the
in-range query 560. -/
theorem wavelength_resolution_witness :
    wave_to_band [450, 550, 650, 750] 560 = some 1
    ∧ wave_to_band [450, 550, 650, 750] 1000 = none
    ∧ ∃ i, wave_to_band [450, 550, 650, 750] 560 = some i
        ∧ i < ([450, 550, 650, 750] : List Int).length
        ∧ ∀ j, j < ([450, 550, 650, 750] : List Int).length →
            (([450, 550, 650, 750] : List Int).getD i 0 - 560).natAbs
              ≤ (([450, 550, 650, 750] : List Int).getD j 0 - 560).natAbs :=
  ⟨(wavelength_resolution [450, 550, 650, 750] 560 (by decide)).2.2.2.1,
   (wavelength_resolution [450, 550, 650, 750] 1000 (by decide)).2.2.2.2,
   (wavelength_resolution [450, 550, 650, 750] 560 (by decide)).1 (by decide)⟩

/-- C5: on the flat-binary backend the returned elements are byte-swapped
exactly once if and only if the declared on-disk byte order differs from
the executing platform's native order: equal orders return the raw storage
values unchanged, different orders return exactly one byte swap of the raw
storage values; and the hierarchical-container backend returns the raw
dataset values with no swap under every byte order. Shown for `get_band`
and `get_chunk`; `get_line`, `get_column` and `get_pixels` repeat the same
conditional (base.py lines 191, 263, 284, 242). -/
theorem byte_order_correction (h : Handle) (sysbo : String)
    (index l c y x b col_start line_start : Nat) :
    (h.file_type = some "envi" → h.endianness = sysbo →
      bandOf h sysbo index l c
        = h.buf (flatIndex h.interleave h.lines h.columns h.bands l c index))
    ∧ (h.file_type = some "envi" → h.endianness ≠ sysbo →
      bandOf h sysbo index l c
        = bswap16 (h.buf (flatIndex h.interleave h.lines h.columns h.bands l c index)))
    ∧ (h.file_type = some "neon" → bandOf h sysbo index l c = h.cube l c index)
    ∧ (h.file_type = some "envi" → h.endianness = sysbo →
      chunkOf h sysbo col_start line_start y x b
        = h.buf (flatIndex h.interleave h.lines h.columns h.bands
            (line_start + y) (col_start + x) b))
    ∧ (h.file_type = some "envi" → h.endianness ≠ sysbo →
      chunkOf h sysbo col_start line_start y x b
        = bswap16 (h.buf (flatIndex h.interleave h.lines h.columns h.bands
            (line_start + y) (col_start + x) b)))
    ∧ (h.file_type = some "neon" →
      chunkOf h sysbo col_start line_start y x b
        = h.cube (line_start + y) (col_start + x) b) := by
  refine ⟨?_, ?_, ?_, ?_, ?_, ?_⟩ <;> intro hft
  · intro hend
    simp [bandOf, get_band_val, envi_read_band, hft, hend]
  · intro hend
    simp [bandOf, get_band_val, envi_read_band, hft, hend]
  · simp [bandOf, get_band_val, hft]
  · intro hend
    simp [chunkOf, get_chunk_val, envi_read_chunk, hft, hend]
  · intro hend
    simp [chunkOf, get_chunk_val, envi_read_chunk, hft, hend]
  · simp [chunkOf, get_chunk_val, hft]

/-- Witness for the C5 theorem: a flat-binary handle declaring "big" order
read on a "little" platform returns the byte swap of raw storage, and a
hierarchical-container handle returns raw dataset values. -/
theorem byte_order_correction_witness :
    bandOf hEnvi "little" 0 1 2
        = bswap16 (hEnvi.buf (flatIndex hEnvi.interleave hEnvi.lines hEnvi.columns
            hEnvi.bands 1 2 0))
    ∧ bandOf hEnvi "big" 0 1 2
        = hEnvi.buf (flatIndex hEnvi.interleave hEnvi.lines hEnvi.columns
            hEnvi.bands 1 2 0)
    ∧ bandOf hNeon "little" 0 1 2 = hNeon.cube 1 2 0 :=
  ⟨(byte_order_correction hEnvi "little" 0 1 2 0 0 0 0 0).2.1 rfl (by decide),
   (byte_order_correction hEnvi "big" 0 1 2 0 0 0 0 0).1 rfl rfl,
   (byte_order_correction hNeon "little" 0 1 2 0 0 0 0 0).2.2.1 rfl⟩

/-- C9: `get_pixels` preserves the caller's input pairing order on both
backends and every interleave layout: for equal-length index lists the read
succeeds with one row per pair, and the i-th row is the full spectrum of
the pixel at (lines i, columns i) — the dataset slice on the
hierarchical-container backend, and the gathered (and, on byte-order
mismatch, byte-swapped) raw spectrum on the flat-binary backend. -/
theorem pixels_preserve_pairing (h : Handle) (sysbo : String) (ls cs : List Nat)
    (i : Nat) (hlen : ls.length = cs.length) (hi : i < ls.length) :
    (h.file_type = some "neon" →
      get_pixels_val h sysbo ls cs = .ok (pixelsOf h sysbo ls cs)
      ∧ (pixelsOf h sysbo ls cs).length = ls.length
      ∧ (pixelsOf h sysbo ls cs).getD i []
          = (List.range h.bands).map (fun b => h.cube (ls.getD i 0) (cs.getD i 0) b))
    ∧ (h.file_type = some "envi" →
      get_pixels_val h sysbo ls cs = .ok (pixelsOf h sysbo ls cs)
      ∧ (pixelsOf h sysbo ls cs).length = ls.length
      ∧ (pixelsOf h sysbo ls cs).getD i []
          = (if h.endianness ≠ sysbo
             then ((List.range h.bands).map (fun b =>
                h.buf (flatIndex h.interleave h.lines h.columns h.bands
                  (ls.getD i 0) (cs.getD i 0) b))).map bswap16
             else (List.range h.bands).map (fun b =>
                h.buf (flatIndex h.interleave h.lines h.columns h.bands
                  (ls.getD i 0) (cs.getD i 0) b)))) := by
  have hzlen : (ls.zip cs).length = ls.length := by
    rw [List.length_zip, hlen, Nat.min_self]
  have hiz : i < (ls.zip cs).length := by rw [hzlen]; exact hi
  have hzget : (ls.zip cs).getD i (0, 0) = (ls.getD i 0, cs.getD i 0) :=
    getD_zip_of_lt ls cs i hi (hlen ▸ hi)
  constructor
  · intro hft
    have hpx : pixelsOf h sysbo ls cs
        = (ls.zip cs).map (fun p => (List.range h.bands).map (fun b => h.cube p.1 p.2 b)) := by
      simp [pixelsOf, get_pixels_val, hft]
    refine ⟨by simp [get_pixels_val, hft, hpx], ?_, ?_⟩
    · rw [hpx, List.length_map, hzlen]
    · rw [hpx, getD_map_of_lt _ (0, 0) _ _ i hiz, hzget]
  · intro hft
    by_cases hend : h.endianness ≠ sysbo
    · have hpx : pixelsOf h sysbo ls cs
          = (envi_read_pixels h.buf h.interleave h.lines h.columns h.bands ls cs).map
              (fun row => row.map bswap16) := by
        simp [pixelsOf, get_pixels_val, hft, hend]
      refine ⟨by simp [get_pixels_val, hft, hend, hpx], ?_, ?_⟩
      · rw [hpx, List.length_map, envi_read_pixels, List.length_map, hzlen]
      · rw [if_pos hend, hpx,
          getD_map_of_lt _ [] _ _ i (by rw [envi_read_pixels, List.length_map]; exact hiz),
          envi_read_pixels, getD_map_of_lt _ (0, 0) _ _ i hiz, hzget]
    · have hpx : pixelsOf h sysbo ls cs
          = envi_read_pixels h.buf h.interleave h.lines h.columns h.bands ls cs := by
        simp [pixelsOf, get_pixels_val, hft, hend]
      refine ⟨by simp [get_pixels_val, hft, hend, hpx], ?_, ?_⟩
      · rw [hpx, envi_read_pixels, List.length_map, hzlen]
      · rw [if_neg hend, hpx, envi_read_pixels,
          getD_map_of_lt _ (0, 0) _ _ i hiz, hzget]

/-- Witness for the C9 theorem: on the concrete hierarchical-container
handle, `get_pixels [3, 1] [2, 4]` has the pixel at (3, 2) as row 0 and the
pixel at (1, 4) as row 1. -/
theorem pixels_preserve_pairing_witness :
    ((pixelsOf hNeon "little" [3, 1] [2, 4]).getD 0 []
      = (List.range hNeon.bands).map (fun b =>
          hNeon.cube ([3, 1].getD 0 0) ([2, 4].getD 0 0) b))
    ∧ ((pixelsOf hNeon "little" [3, 1] [2, 4]).getD 1 []
      = (List.range hNeon.bands).map (fun b =>
          hNeon.cube ([3, 1].getD 1 0) ([2, 4].getD 1 0) b)) :=
  ⟨((pixels_preserve_pairing hNeon "little" [3, 1] [2, 4] 0 (by decide)
      (by decide)).1 rfl).2.2,
   ((pixels_preserve_pairing hNeon "little" [3, 1] [2, 4] 1 (by decide)
      (by decide)).1 rfl).2.2⟩

/-- On a handle whose backend kind is one of the two recognized ones,
`get_band` succeeds and returns `bandOf`. -/
theorem get_band_val_eq_ok (h : Handle) (sysbo : String) (index : Nat)
    (hft : h.file_type = some "neon" ∨ h.file_type = some "envi") :
    get_band_val h sysbo index = .ok (bandOf h sysbo index) := by
  rcases hft with hft | hft <;> simp [get_band_val, bandOf, hft]

/-- Boolean selection on equal-length flat lists picks out exactly the
elements at the true positions, in row-major order. -/
theorem maskSelFlat_eq_truePositions : (xs : List Nat) → (bs : List Bool) →
    xs.length = bs.length →
    maskSelFlat xs bs = (truePositions bs).map (fun j => xs.getD j 0)
  | [], [], _ => rfl
  | [], _ :: _, h => by simp at h
  | _ :: _, [], h => by simp at h
  | x :: xs, b :: bs, h => by
    have IH := maskSelFlat_eq_truePositions xs bs (by simpa using h)
    cases b
    · simpa [maskSelFlat, truePositions, List.map_map, Function.comp_def,
        List.getD_cons_succ] using IH
    · simpa [maskSelFlat, truePositions, List.map_map, Function.comp_def,
        List.getD_cons_succ, List.getD_cons_zero] using IH

/-- Boolean selection on equal-length flat lists returns as many elements
as the mask has true entries. -/
theorem maskSelFlat_length : (xs : List Nat) → (bs : List Bool) →
    xs.length = bs.length → (maskSelFlat xs bs).length = bs.count true
  | [], [], _ => rfl
  | [], _ :: _, h => by simp at h
  | _ :: _, [], h => by simp at h
  | x :: xs, b :: bs, h => by
    have IH := maskSelFlat_length xs bs (by simpa using h)
    cases b
    · simpa [maskSelFlat, List.count_cons] using IH
    · simpa [maskSelFlat, List.count_cons] using IH

/-- The flattened length of a list of rows of uniform length. -/
theorem flatten_length_of_uniform {α : Type} : (m : List (List α)) → (c : Nat) →
    (∀ row ∈ m, row.length = c) → m.flatten.length = m.length * c
  | [], _, _ => by simp
  | row :: m, c, hk => by
    simp only [List.flatten_cons, List.length_append, List.length_cons]
    rw [hk row (by simp), flatten_length_of_uniform m c (fun r hr => hk r (by simp [hr]))]
    ring

/-- A materialised (lines, columns) band flattens to `lines * columns`
elements. -/
theorem band2list_flatten_length (lines columns : Nat) (f : Nat → Nat → Nat) :
    (band2list lines columns f).flatten.length = lines * columns := by
  have hC : ∀ row ∈ band2list lines columns f, row.length = columns := by
    intro row hrow
    rw [band2list] at hrow
    obtain ⟨l, _, rfl⟩ := List.mem_map.mp hrow
    simp
  rw [flatten_length_of_uniform _ _ hC, band2list, List.length_map, List.length_range]

/-- C8: `get_band` called with a registered mask name returns a 1-D array:
its length is the number of true entries of that mask, and its i-th element
is the entry of the unmasked 2-D (lines, columns) band at the i-th true
position of the mask in row-major order — the result is exactly the
row-major true-position gather from the unmasked band. -/
theorem masked_band_selection (h : Handle) (sysbo : String) (index : Nat)
    (name : String) (m : List (List Bool))
    (hft : h.file_type = some "neon" ∨ h.file_type = some "envi")
    (hlook : List.lookup name h.masks = some m)
    (hL : m.length = h.lines) (hC : ∀ row ∈ m, row.length = h.columns) :
    get_band_masked h sysbo index name
      = .ok ((truePositions m.flatten).map
          (fun j => (band2list h.lines h.columns
            (bandOf h sysbo index)).flatten.getD j 0))
    ∧ ((truePositions m.flatten).map
          (fun j => (band2list h.lines h.columns
            (bandOf h sysbo index)).flatten.getD j 0)).length
        = m.flatten.count true := by
  have hflat : (band2list h.lines h.columns (bandOf h sysbo index)).flatten.length
      = m.flatten.length := by
    rw [band2list_flatten_length, flatten_length_of_uniform m h.columns hC, hL]
  have hsel : numpyBoolSelect (band2list h.lines h.columns (bandOf h sysbo index)) m
      = (truePositions m.flatten).map
          (fun j => (band2list h.lines h.columns
            (bandOf h sysbo index)).flatten.getD j 0) :=
    maskSelFlat_eq_truePositions _ _ hflat
  constructor
  · simp only [get_band_masked, get_band_val_eq_ok h sysbo index hft, hlook, hsel]
  · rw [← hsel]
    exact maskSelFlat_length _ _ hflat

/-- Witness for the C8 theorem on the concrete masked handle: the masked
band is the true-position gather from the unmasked band, of length equal to
the mask's true count. -/
theorem masked_band_selection_witness :
    get_band_masked hMask "little" 0 "no_data"
      = .ok ((truePositions ([[true, false], [false, true]] :
            List (List Bool)).flatten).map
          (fun j => (band2list hMask.lines hMask.columns
            (bandOf hMask "little" 0)).flatten.getD j 0))
    ∧ ((truePositions ([[true, false], [false, true]] :
            List (List Bool)).flatten).map
          (fun j => (band2list hMask.lines hMask.columns
            (bandOf hMask "little" 0)).flatten.getD j 0)).length
        = ([[true, false], [false, true]] : List (List Bool)).flatten.count true :=
  ⟨(masked_band_selection hMask "little" 0 "no_data" [[true, false], [false, true]]
      (Or.inl rfl) rfl (by decide) (by decide)).1,
   (masked_band_selection hMask "little" 0 "no_data" [[true, false], [false, true]]
      (Or.inl rfl) rfl (by decide) (by decide)).2⟩

/-- Witness for the amended C10 theorem at the concrete unrecognized kind
"zarr". -/
theorem unrecognized_kind_open_amended_witness :
    read_file Handle.init "zarr" none false
        = (Handle.init, .error (.nameError "file_name"))
    ∧ read_file_dispatch "zarr" = OpenAction.printUnrecognized
    ∧ get_band_val Handle.init "little" 0 = .error (.nameError "band") :=
  ⟨(unrecognized_kind_open_amended "zarr" (by decide) (by decide) "little" 0 0 0 [] []).1,
   (unrecognized_kind_open_amended "zarr" (by decide) (by decide) "little" 0 0 0 [] []).2.1,
   (unrecognized_kind_open_amended "zarr" (by decide) (by decide) "little" 0 0 0 [] []).2.2.1⟩

end HTL
